import Mathlib

/-!
Verification development for the QNNPACK hardware-capability detector and
kernel-configuration registry (`src/init.c`) and the quantized global average
pooling operator contract exercised by `test/global-average-pooling.cc`.

The C sources are shallowly embedded: the process-global `qnnp_params`
becomes an explicit record threaded through a step function, the
`pthread_once` guard becomes a boolean flag on the state, and the
architecture-selecting preprocessor conditionals become a match on the
detected architecture family. C designated initializers zero the fields they
do not mention, so kernel function-pointer slots are modelled as
`Option UKernel` with `none` for a NULL (unbound) slot.

Naming note: the C entry points `qnnp_initialize` / `qnnp_deinitialize` and
the cpuinfo probe calls are embedded under the names `qnnp_init_call`,
`qnnp_deinit_call`, `pthread_once_run` and the boolean `ok` argument
standing for the success of the cpuinfo probe population.
-/

/-- Architecture family selected at build time by the `CPUINFO_ARCH_*`
preprocessor conditionals in `init.c` (the X86 and X86_64 conditionals guard
the same branch and are merged). -/
inductive CpuArch where
  | arm
  | arm64
  | x86
deriving DecidableEq

/-- Microarchitecture identity of core 0 as reported by cpuinfo; only the
three cases named in the `switch` of `init.c` are distinguished, every other
identity is `other` with an opaque id. -/
inductive CpuUarch where
  | cortex_a72
  | cortex_a73
  | cortex_a75
  | other (id : Nat)
deriving DecidableEq

/-- Capability snapshot: architecture family, core-0 microarchitecture, and
the two baseline SIMD feature flags tested by `init.c`
(`cpuinfo_has_arm_neon`, `cpuinfo_has_x86_sse2`). -/
structure HostCapabilities where
  arch : CpuArch
  uarch : CpuUarch
  has_arm_neon : Bool
  has_x86_sse2 : Bool
deriving DecidableEq

/-- The micro-kernel symbols bound by `init.c`, one constructor per distinct
C function referenced. -/
inductive UKernel where
  | q8gemm_ukernel_4x8__aarch32_neon
  | q8conv_ukernel_4x8__aarch32_neon
  | q8gemm_xzp_ukernel_4x8c2__aarch32_neon
  | q8updw_ukernel_9c8__aarch32_neon
  | q8gemm_ukernel_8x8__aarch64_neon
  | q8conv_ukernel_8x8__aarch64_neon
  | q8updw_ukernel_9c8__neon
  | q8mpdw_ukernel_25c8__neon
  | q8sumrows_ukernel_4x__neon
  | q8uvadd_ukernel__neon
  | q8gavgpool_ukernel_up8xm__neon
  | q8gavgpool_ukernel_up8x7__neon
  | q8gavgpool_ukernel_mp8x7__neon
  | qnnp_x8zip_x2__neon
  | qnnp_x8zip_x3__neon
  | qnnp_x8zip_x4__neon
  | qnnp_x8zip_xm__neon
  | q8gemm_ukernel_4x4c2__sse2
  | q8conv_ukernel_4x4c2__sse2
  | q8updw_ukernel_9c8__sse2
  | q8mpdw_ukernel_25c8__sse2
  | q8uvadd_ukernel__sse2
  | q8gavgpool_ukernel_up8xm__sse2
  | q8gavgpool_ukernel_up8x7__sse2
  | q8gavgpool_ukernel_mp8x7__sse2
  | qnnp_x8zip_x2__sse2
  | qnnp_x8zip_x3__sse2
  | qnnp_x8zip_x4__sse2
  | qnnp_x8zip_xm__sse2
deriving DecidableEq

/-- Model of the C constant SIZE_MAX (the model fixes a 64-bit size_t). -/
def SIZE_MAX : Nat := 2 ^ 64 - 1

/-- Mirror of `struct q8conv_parameters`. -/
structure q8conv_parameters where
  gemm : Option UKernel
  conv : Option UKernel
  mr : Nat
  nr : Nat
  kr : Nat
deriving DecidableEq

/-- Mirror of `struct q8conv_xzp_parameters`. -/
structure q8conv_xzp_parameters where
  gemm : Option UKernel
  mr : Nat
  nr : Nat
  kr : Nat
  kc : Nat
  kthreshold : Nat
deriving DecidableEq

/-- Mirror of `struct q8updw_parameters`. -/
structure q8updw_parameters where
  updw : Option UKernel
  cr : Nat
deriving DecidableEq

/-- Mirror of `struct q8mpdw_parameters`. -/
structure q8mpdw_parameters where
  mpdw : Option UKernel
  cr : Nat
deriving DecidableEq

/-- Mirror of `struct q8sum_rows_parameters`. -/
structure q8sum_rows_parameters where
  sum_rows : Option UKernel
  m : Nat
deriving DecidableEq

/-- Mirror of `struct q8add_parameters`. -/
structure q8add_parameters where
  uvadd : Option UKernel
deriving DecidableEq

/-- Mirror of `struct q8gavgpool_parameters`. -/
structure q8gavgpool_parameters where
  ltnr : Option UKernel
  genr_lemr : Option UKernel
  genr_gtmr : Option UKernel
  mr : Nat
  nr : Nat
deriving DecidableEq

/-- Mirror of `struct x8zip_parameters`. -/
structure x8zip_parameters where
  x2 : Option UKernel
  x3 : Option UKernel
  x4 : Option UKernel
  xm : Option UKernel
deriving DecidableEq

/-- Mirror of `struct qnnp_parameters` (the global `qnnp_params`). -/
structure qnnp_parameters where
  initialized : Bool
  q8conv : q8conv_parameters
  q8conv_xzp : q8conv_xzp_parameters
  q8dw9 : q8updw_parameters
  q8dw25 : q8mpdw_parameters
  q8sum_rows : q8sum_rows_parameters
  q8add : q8add_parameters
  q8gavgpool : q8gavgpool_parameters
  x8zip : x8zip_parameters
deriving DecidableEq

/-- The static initializer of the global `qnnp_params`: C zero-initializes
every field not named in `{ .initialized = false }`, so all kernel slots are
NULL and all tile sizes 0. -/
def qnnp_params_static : qnnp_parameters :=
  { initialized := false
  , q8conv := ⟨none, none, 0, 0, 0⟩
  , q8conv_xzp := ⟨none, 0, 0, 0, 0, 0⟩
  , q8dw9 := ⟨none, 0⟩
  , q8dw25 := ⟨none, 0⟩
  , q8sum_rows := ⟨none, 0⟩
  , q8add := ⟨none⟩
  , q8gavgpool := ⟨none, none, none, 0, 0⟩
  , x8zip := ⟨none, none, none, none⟩ }

/-- The `static void init(void)` body of `init.c`: populates the registry
for the detected architecture and sets `initialized`, or returns the state
unchanged when the architecture's baseline SIMD check fails. -/
def init (caps : HostCapabilities) (p : qnnp_parameters) : qnnp_parameters :=
  match caps.arch with
  | CpuArch.arm =>
      if !caps.has_arm_neon then p
      else
        let p := { p with q8conv :=
          ⟨some UKernel.q8gemm_ukernel_4x8__aarch32_neon,
           some UKernel.q8conv_ukernel_4x8__aarch32_neon, 4, 8, 1⟩ }
        let p := { p with q8conv_xzp :=
          ⟨some UKernel.q8gemm_xzp_ukernel_4x8c2__aarch32_neon,
           4, 8, 2, 8, SIZE_MAX⟩ }
        let p := { p with q8conv_xzp := { p.q8conv_xzp with kthreshold :=
          match caps.uarch with
          | CpuUarch.cortex_a72 => 64
          | CpuUarch.cortex_a73 => 256
          | CpuUarch.cortex_a75 => 32
          | _ => p.q8conv_xzp.kthreshold } }
        let p := { p with q8dw9 := ⟨some UKernel.q8updw_ukernel_9c8__aarch32_neon, 8⟩ }
        let p := { p with q8dw25 := ⟨some UKernel.q8mpdw_ukernel_25c8__neon, 8⟩ }
        let p := { p with q8sum_rows := ⟨some UKernel.q8sumrows_ukernel_4x__neon, 4⟩ }
        let p := { p with q8add := ⟨some UKernel.q8uvadd_ukernel__neon⟩ }
        let p := { p with q8gavgpool :=
          ⟨some UKernel.q8gavgpool_ukernel_up8xm__neon,
           some UKernel.q8gavgpool_ukernel_up8x7__neon,
           some UKernel.q8gavgpool_ukernel_mp8x7__neon, 7, 8⟩ }
        let p := { p with x8zip :=
          ⟨some UKernel.qnnp_x8zip_x2__neon, some UKernel.qnnp_x8zip_x3__neon,
           some UKernel.qnnp_x8zip_x4__neon, some UKernel.qnnp_x8zip_xm__neon⟩ }
        { p with initialized := true }
  | CpuArch.arm64 =>
      let p := { p with q8conv :=
        ⟨some UKernel.q8gemm_ukernel_8x8__aarch64_neon,
         some UKernel.q8conv_ukernel_8x8__aarch64_neon, 8, 8, 1⟩ }
      let p := { p with q8conv_xzp := ⟨none, 0, 0, 0, 0, SIZE_MAX⟩ }
      let p := { p with q8dw9 := ⟨some UKernel.q8updw_ukernel_9c8__neon, 8⟩ }
      let p := { p with q8dw25 := ⟨some UKernel.q8mpdw_ukernel_25c8__neon, 8⟩ }
      let p := { p with q8add := ⟨some UKernel.q8uvadd_ukernel__neon⟩ }
      let p := { p with q8gavgpool :=
        ⟨some UKernel.q8gavgpool_ukernel_up8xm__neon,
         some UKernel.q8gavgpool_ukernel_up8x7__neon,
         some UKernel.q8gavgpool_ukernel_mp8x7__neon, 7, 8⟩ }
      let p := { p with x8zip :=
        ⟨some UKernel.qnnp_x8zip_x2__neon, some UKernel.qnnp_x8zip_x3__neon,
         some UKernel.qnnp_x8zip_x4__neon, some UKernel.qnnp_x8zip_xm__neon⟩ }
      { p with initialized := true }
  | CpuArch.x86 =>
      if !caps.has_x86_sse2 then p
      else
        let p := { p with q8conv :=
          ⟨some UKernel.q8gemm_ukernel_4x4c2__sse2,
           some UKernel.q8conv_ukernel_4x4c2__sse2, 4, 4, 2⟩ }
        let p := { p with q8conv_xzp := ⟨none, 0, 0, 0, 0, SIZE_MAX⟩ }
        let p := { p with q8dw9 := ⟨some UKernel.q8updw_ukernel_9c8__sse2, 8⟩ }
        let p := { p with q8dw25 := ⟨some UKernel.q8mpdw_ukernel_25c8__sse2, 8⟩ }
        let p := { p with q8add := ⟨some UKernel.q8uvadd_ukernel__sse2⟩ }
        let p := { p with q8gavgpool :=
          ⟨some UKernel.q8gavgpool_ukernel_up8xm__sse2,
           some UKernel.q8gavgpool_ukernel_up8x7__sse2,
           some UKernel.q8gavgpool_ukernel_mp8x7__sse2, 7, 8⟩ }
        let p := { p with x8zip :=
          ⟨some UKernel.qnnp_x8zip_x2__sse2, some UKernel.qnnp_x8zip_x3__sse2,
           some UKernel.qnnp_x8zip_x4__sse2, some UKernel.qnnp_x8zip_xm__sse2⟩ }
        { p with initialized := true }

/-- The mandatory baseline SIMD feature of the detected architecture is
absent: NEON on ARM32, SSE2 on x86. On ARM64 the advanced-SIMD extension is
architecturally mandatory, and `init.c` performs no runtime check there. -/
def baseline_simd_absent (caps : HostCapabilities) : Bool :=
  match caps.arch with
  | CpuArch.arm => !caps.has_arm_neon
  | CpuArch.arm64 => false
  | CpuArch.x86 => !caps.has_x86_sse2

/-- Process-global state threaded through the lifecycle entry points:
the registry `qnnp_params`, the `pthread_once` guard flag, an observation
counter of how many times `init` has actually run, and the cpuinfo
reference count standing for the CapabilityProbe resources. -/
structure GlobalState where
  params : qnnp_parameters
  once_done : Bool
  init_runs : Nat
  cpuinfo_refs : Nat
deriving DecidableEq

/-- Process start: statically zero-initialized registry, once-guard not yet
fired. -/
def initial_state : GlobalState :=
  { params := qnnp_params_static, once_done := false, init_runs := 0, cpuinfo_refs := 0 }

/-- Semantics of `pthread_once(&init_guard, &init)`: run `init` the first
time, do nothing afterwards. -/
def pthread_once_run (caps : HostCapabilities) (s : GlobalState) : GlobalState :=
  if s.once_done then s
  else { params := init caps s.params, once_done := true,
         init_runs := s.init_runs + 1, cpuinfo_refs := s.cpuinfo_refs }

/-- Status codes that the two lifecycle entry points of `init.c` return. -/
inductive qnnp_status where
  | success
  | unsupported_hardware
  | out_of_memory
deriving DecidableEq

/-- Embedding of `qnnp_initialize` (named `qnnp_init_call` here): `ok` is
the boolean result of the cpuinfo probe population, which increments the
probe reference count on success; on probe failure the call returns
out-of-memory without touching the once-guard. -/
def qnnp_init_call (ok : Bool) (caps : HostCapabilities) (s : GlobalState) :
    qnnp_status × GlobalState :=
  if ok = false then (qnnp_status.out_of_memory, s)
  else
    let s1 : GlobalState := { s with cpuinfo_refs := s.cpuinfo_refs + 1 }
    let s2 := pthread_once_run caps s1
    if s2.params.initialized then (qnnp_status.success, s2)
    else (qnnp_status.unsupported_hardware, s2)

/-- Embedding of `qnnp_deinitialize` (named `qnnp_deinit_call` here): it
releases one cpuinfo reference and returns success, touching nothing else. -/
def qnnp_deinit_call (s : GlobalState) : qnnp_status × GlobalState :=
  (qnnp_status.success, { s with cpuinfo_refs := s.cpuinfo_refs - 1 })

/-- States reachable in a process with fixed host capabilities through any
sequence of the two lifecycle entry points. -/
inductive Reached (caps : HostCapabilities) : GlobalState → Prop where
  | start : Reached caps initial_state
  | step_init (ok : Bool) (s : GlobalState) :
      Reached caps s → Reached caps (qnnp_init_call ok caps s).2
  | step_deinit (s : GlobalState) :
      Reached caps s → Reached caps (qnnp_deinit_call s).2

/-- Running a list of calls to the embedded `qnnp_initialize`, each with its
own cpuinfo-probe outcome, collecting the returned statuses. -/
def run_calls (caps : HostCapabilities) (oks : List Bool) (s : GlobalState) :
    List qnnp_status × GlobalState :=
  match oks with
  | [] => ([], s)
  | ok :: rest =>
      let r := qnnp_init_call ok caps s
      let rr := run_calls caps rest r.2
      (r.1 :: rr.1, rr.2)

/-- The memoized outcome every successful-probe call observes. -/
def memo_status (caps : HostCapabilities) : qnnp_status :=
  if baseline_simd_absent caps then qnnp_status.unsupported_hardware
  else qnnp_status.success

lemma init_initialized (caps : HostCapabilities) :
    (init caps qnnp_params_static).initialized = !baseline_simd_absent caps := by
  obtain ⟨arch, uarch, neon, sse2⟩ := caps
  cases arch <;> cases uarch <;> cases neon <;> cases sse2 <;> rfl

lemma qnnp_init_call_snd (caps : HostCapabilities) (s : GlobalState) :
    (qnnp_init_call true caps s).2 =
      pthread_once_run caps { s with cpuinfo_refs := s.cpuinfo_refs + 1 } := by
  simp only [qnnp_init_call, Bool.true_eq_false, if_false]
  split <;> rfl

lemma reached_params (caps : HostCapabilities) (s : GlobalState)
    (h : Reached caps s) :
    s.params = (if s.once_done then init caps qnnp_params_static else qnnp_params_static) ∧
    s.init_runs = (if s.once_done then 1 else 0) := by
  induction h with
  | start => exact ⟨rfl, rfl⟩
  | step_init ok s hs ih =>
      by_cases hok : ok = false
      · subst hok
        simpa [qnnp_init_call] using ih
      · have hok' : ok = true := by cases ok <;> simp_all
        subst hok'
        rw [qnnp_init_call_snd]
        by_cases hd : s.once_done
        · simp only [hd, if_true] at ih
          simp [pthread_once_run, hd, ih.1, ih.2]
        · have hd' : s.once_done = false := by simp_all
          simp only [hd', Bool.false_eq_true, if_false] at ih
          simp [pthread_once_run, hd', ih.1, ih.2]
  | step_deinit s hs ih =>
      simpa [qnnp_deinit_call] using ih

lemma qnnp_init_call_fst (caps : HostCapabilities) (s : GlobalState) (h : Reached caps s) :
    (qnnp_init_call true caps s).1 = memo_status caps := by
  have hp := (reached_params caps s h).1
  have hini := init_initialized caps
  cases hb : baseline_simd_absent caps <;> by_cases hd : s.once_done <;>
    simp_all [qnnp_init_call, pthread_once_run, memo_status]

/-- Claim C1: every call to the embedded `qnnp_initialize` returns exactly
one of success, unsupported-hardware, or out-of-memory: out-of-memory
exactly when the cpuinfo capability-snapshot population fails,
unsupported-hardware exactly when probing succeeded but the architecture's
mandatory baseline SIMD feature is absent, and success otherwise. -/
theorem qnnp_init_status_complete (caps : HostCapabilities) (ok : Bool)
    (s : GlobalState) (h : Reached caps s) :
    (qnnp_init_call ok caps s).1 =
      (if ok = false then qnnp_status.out_of_memory
       else if baseline_simd_absent caps then qnnp_status.unsupported_hardware
       else qnnp_status.success) := by
  cases ok with
  | false => simp [qnnp_init_call]
  | true =>
      rw [qnnp_init_call_fst caps s h]
      cases hb : baseline_simd_absent caps <;> simp [memo_status, hb]

/-- Concrete host used by witnesses: an ARM64 core of unspecified
microarchitecture with all feature flags set. -/
def caps_arm64 : HostCapabilities :=
  ⟨CpuArch.arm64, CpuUarch.other 0, true, true⟩

/-- Witness for C1 at a concrete reachable state and probe outcome. -/
theorem qnnp_init_status_complete_witness :
    (qnnp_init_call true caps_arm64 initial_state).1 = qnnp_status.success := by
  have h := qnnp_init_status_complete caps_arm64 true initial_state Reached.start
  simpa using h

lemma run_calls_steady (caps : HostCapabilities) (oks : List Bool) :
    ∀ s : GlobalState, s.once_done = true → (∀ b ∈ oks, b = true) →
    (run_calls caps oks s).2.once_done = true ∧
    (run_calls caps oks s).2.init_runs = s.init_runs ∧
    (run_calls caps oks s).2.params = s.params ∧
    ∀ st ∈ (run_calls caps oks s).1,
      st = (if s.params.initialized then qnnp_status.success
            else qnnp_status.unsupported_hardware) := by
  induction oks with
  | nil =>
      intro s hdone hall
      simp [run_calls, hdone]
  | cons ok rest ih =>
      intro s hdone hall
      have hok : ok = true := hall ok (List.mem_cons_self ok rest)
      subst hok
      have hrest : ∀ b ∈ rest, b = true := fun b hb => hall b (List.mem_cons_of_mem _ hb)
      have hsnd : (qnnp_init_call true caps s).2 =
          { s with cpuinfo_refs := s.cpuinfo_refs + 1 } := by
        rw [qnnp_init_call_snd]
        simp [pthread_once_run, hdone]
      have hfst : (qnnp_init_call true caps s).1 =
          (if s.params.initialized then qnnp_status.success
           else qnnp_status.unsupported_hardware) := by
        simp only [qnnp_init_call, Bool.true_eq_false, if_false, pthread_once_run]
        simp only [hdone, if_true]
        split <;> rfl
      obtain ⟨i1, i2, i3, i4⟩ :=
        ih { s with cpuinfo_refs := s.cpuinfo_refs + 1 } hdone hrest
      refine ⟨?_, ?_, ?_, ?_⟩
      · simpa [run_calls, hsnd] using i1
      · simpa [run_calls, hsnd] using i2
      · simpa [run_calls, hsnd] using i3
      · intro st hst
        simp only [run_calls, hsnd, List.mem_cons] at hst
        rcases hst with hst | hst
        · rw [hst, hfst]
        · exact i4 st hst

/-- Claim C2: for any nonempty sequence of calls to the embedded
`qnnp_initialize` whose cpuinfo probes all succeed, registry construction
(the `init` function) executes exactly once, and every caller observes the
identical memoized outcome. Concurrency is modelled as the arbitrary
serialized interleaving that the `pthread_once` guard enforces. -/
theorem qnnp_init_idempotent (caps : HostCapabilities) (oks : List Bool)
    (hne : oks ≠ []) (hall : ∀ b ∈ oks, b = true) :
    (run_calls caps oks initial_state).2.init_runs = 1 ∧
    ∀ st ∈ (run_calls caps oks initial_state).1, st = memo_status caps := by
  match oks, hne with
  | ok :: rest, _ =>
    have hok : ok = true := hall ok (List.mem_cons_self ok rest)
    subst hok
    have hrest : ∀ b ∈ rest, b = true := fun b hb => hall b (List.mem_cons_of_mem _ hb)
    have hsnd : (qnnp_init_call true caps initial_state).2 =
        { params := init caps qnnp_params_static, once_done := true,
          init_runs := 1, cpuinfo_refs := 1 } := by
      rw [qnnp_init_call_snd]
      simp [pthread_once_run, initial_state]
    have hfst : (qnnp_init_call true caps initial_state).1 = memo_status caps :=
      qnnp_init_call_fst caps initial_state Reached.start
    obtain ⟨i1, i2, i3, i4⟩ := run_calls_steady caps rest
      { params := init caps qnnp_params_static, once_done := true,
        init_runs := 1, cpuinfo_refs := 1 } rfl hrest
    have hmemo : (if (init caps qnnp_params_static).initialized then qnnp_status.success
        else qnnp_status.unsupported_hardware) = memo_status caps := by
      rw [init_initialized]
      cases hb : baseline_simd_absent caps <;> simp [memo_status, hb]
    refine ⟨?_, ?_⟩
    · simpa [run_calls, hsnd] using i2
    · intro st hst
      simp only [run_calls, hsnd, List.mem_cons] at hst
      rcases hst with hst | hst
      · rw [hst, hfst]
      · have := i4 st hst
        rwa [hmemo] at this

/-- Witness for C2 with two successful calls on a concrete ARM64 host. -/
theorem qnnp_init_idempotent_witness :
    (run_calls caps_arm64 [true, true] initial_state).2.init_runs = 1 ∧
    ∀ st ∈ (run_calls caps_arm64 [true, true] initial_state).1,
      st = memo_status caps_arm64 :=
  qnnp_init_idempotent caps_arm64 [true, true] (by decide) (by decide)

/-- Claim C6: the embedded `qnnp_deinitialize` always returns success and
leaves the registry untouched: `qnnp_params` (every entry and the
readiness flag) and the once-guard are unchanged, only the cpuinfo
reference count (the CapabilityProbe resources) is released. -/
theorem qnnp_deinit_frame (s : GlobalState) :
    (qnnp_deinit_call s).1 = qnnp_status.success ∧
    (qnnp_deinit_call s).2.params = s.params ∧
    (qnnp_deinit_call s).2.once_done = s.once_done ∧
    (qnnp_deinit_call s).2.init_runs = s.init_runs :=
  ⟨rfl, rfl, rfl, rfl⟩

/-- Claim C3: after successful registry construction, the primary
matmul/convolution entry `q8conv` holds the architecture-constant blocking
parameters mr=8, nr=8, kr=1 on ARM64; mr=4, nr=8, kr=1 on ARM32;
mr=4, nr=4, kr=2 on x86/x64. -/
theorem q8conv_blocking (caps : HostCapabilities)
    (h : (init caps qnnp_params_static).initialized = true) :
    ((init caps qnnp_params_static).q8conv.mr,
     (init caps qnnp_params_static).q8conv.nr,
     (init caps qnnp_params_static).q8conv.kr) =
      (match caps.arch with
       | CpuArch.arm64 => (8, 8, 1)
       | CpuArch.arm => (4, 8, 1)
       | CpuArch.x86 => (4, 4, 2)) := by
  obtain ⟨arch, uarch, neon, sse2⟩ := caps
  cases arch <;> cases uarch <;> cases neon <;> cases sse2 <;>
    first | rfl | exact Bool.noConfusion h

/-- Witness for C3 on a concrete ARM32 host with NEON. -/
theorem q8conv_blocking_witness :
    ((init ⟨CpuArch.arm, CpuUarch.cortex_a72, true, true⟩ qnnp_params_static).q8conv.mr,
     (init ⟨CpuArch.arm, CpuUarch.cortex_a72, true, true⟩ qnnp_params_static).q8conv.nr,
     (init ⟨CpuArch.arm, CpuUarch.cortex_a72, true, true⟩ qnnp_params_static).q8conv.kr) =
      (4, 8, 1) :=
  q8conv_blocking ⟨CpuArch.arm, CpuUarch.cortex_a72, true, true⟩ rfl

/-- Claim C4: after successful construction the xzp matmul variant's
kthreshold defaults to SIZE_MAX on every architecture; on ARM32 only, the
microarchitecture switch overrides it for exactly the three reference cores
(Cortex-A72 to 64, Cortex-A73 to 256, Cortex-A75 to 32); every other
microarchitecture, and ARM64 and x86, keep SIZE_MAX. -/
theorem q8conv_xzp_kthreshold (caps : HostCapabilities)
    (h : (init caps qnnp_params_static).initialized = true) :
    (init caps qnnp_params_static).q8conv_xzp.kthreshold =
      (match caps.arch, caps.uarch with
       | CpuArch.arm, CpuUarch.cortex_a72 => 64
       | CpuArch.arm, CpuUarch.cortex_a73 => 256
       | CpuArch.arm, CpuUarch.cortex_a75 => 32
       | _, _ => SIZE_MAX) := by
  obtain ⟨arch, uarch, neon, sse2⟩ := caps
  cases arch <;> cases uarch <;> cases neon <;> cases sse2 <;>
    first | rfl | exact Bool.noConfusion h

/-- Witness for C4 on a concrete ARM32 Cortex-A73 host. -/
theorem q8conv_xzp_kthreshold_witness :
    (init ⟨CpuArch.arm, CpuUarch.cortex_a73, true, true⟩
        qnnp_params_static).q8conv_xzp.kthreshold = 256 :=
  q8conv_xzp_kthreshold ⟨CpuArch.arm, CpuUarch.cortex_a73, true, true⟩ rfl

/-- Counterexample to claim C5: on ARM32 (NEON present, any
microarchitecture), registry population binds every xzp and zip kernel
slot — the xzp gemm slot and all four zip slots are non-NULL — so no
operator family has an unbound xzp or zip kernel reference on ARM32. -/
theorem arm32_xzp_zip_slots_all_bound :
    (init ⟨CpuArch.arm, CpuUarch.other 0, true, true⟩ qnnp_params_static).initialized = true ∧
    (init ⟨CpuArch.arm, CpuUarch.other 0, true, true⟩ qnnp_params_static).q8conv_xzp.gemm ≠ none ∧
    (init ⟨CpuArch.arm, CpuUarch.other 0, true, true⟩ qnnp_params_static).x8zip.x2 ≠ none ∧
    (init ⟨CpuArch.arm, CpuUarch.other 0, true, true⟩ qnnp_params_static).x8zip.x3 ≠ none ∧
    (init ⟨CpuArch.arm, CpuUarch.other 0, true, true⟩ qnnp_params_static).x8zip.x4 ≠ none ∧
    (init ⟨CpuArch.arm, CpuUarch.other 0, true, true⟩ qnnp_params_static).x8zip.xm ≠ none := by
  refine ⟨rfl, ?_, ?_, ?_, ?_, ?_⟩ <;> exact fun hc => Option.noConfusion hc

/-- Claim C5 as amended: it is on ARM64 and x86, not ARM32, that registry
population leaves an xzp kernel slot unset (after successful construction
the xzp matmul entry's kernel reference is NULL there, only its threshold
being written), because no xzp kernel exists for those architectures. -/
theorem xzp_slot_unset_on_arm64_x86 (caps : HostCapabilities)
    (h : (init caps qnnp_params_static).initialized = true)
    (ha : caps.arch = CpuArch.arm64 ∨ caps.arch = CpuArch.x86) :
    (init caps qnnp_params_static).q8conv_xzp.gemm = none := by
  obtain ⟨arch, uarch, neon, sse2⟩ := caps
  cases arch with
  | arm => rcases ha with ha | ha <;> exact CpuArch.noConfusion ha
  | arm64 => rfl
  | x86 =>
      cases sse2 with
      | false => exact Bool.noConfusion h
      | true => rfl

/-- Witness for the amended C5 on a concrete ARM64 host. -/
theorem xzp_slot_unset_on_arm64_x86_witness :
    (init caps_arm64 qnnp_params_static).q8conv_xzp.gemm = none :=
  xzp_slot_unset_on_arm64_x86 caps_arm64 rfl (Or.inl rfl)

/-- Claim C10: on every supported architecture, after successful
construction the global-average-pooling registry entry has blocking
parameters mr = 7 and nr = 8 and binds three pairwise-distinct kernel
variants in its ltnr, genr_lemr and genr_gtmr slots: the channels-below-nr
case has its own dedicated kernel. -/
theorem q8gavgpool_registry (caps : HostCapabilities)
    (h : (init caps qnnp_params_static).initialized = true) :
    (init caps qnnp_params_static).q8gavgpool.mr = 7 ∧
    (init caps qnnp_params_static).q8gavgpool.nr = 8 ∧
    ∃ k1 k2 k3 : UKernel,
      (init caps qnnp_params_static).q8gavgpool.ltnr = some k1 ∧
      (init caps qnnp_params_static).q8gavgpool.genr_lemr = some k2 ∧
      (init caps qnnp_params_static).q8gavgpool.genr_gtmr = some k3 ∧
      k1 ≠ k2 ∧ k1 ≠ k3 ∧ k2 ≠ k3 := by
  obtain ⟨arch, uarch, neon, sse2⟩ := caps
  cases arch <;> cases uarch <;> cases neon <;> cases sse2 <;>
    first
      | exact Bool.noConfusion h
      | exact ⟨rfl, rfl, _, _, _, rfl, rfl, rfl, by decide, by decide, by decide⟩

/-- Witness for C10 on a concrete x86 host with SSE2. -/
theorem q8gavgpool_registry_witness :
    (init ⟨CpuArch.x86, CpuUarch.other 0, true, true⟩ qnnp_params_static).q8gavgpool.mr = 7 ∧
    (init ⟨CpuArch.x86, CpuUarch.other 0, true, true⟩ qnnp_params_static).q8gavgpool.nr = 8 ∧
    ∃ k1 k2 k3 : UKernel,
      (init ⟨CpuArch.x86, CpuUarch.other 0, true, true⟩ qnnp_params_static).q8gavgpool.ltnr = some k1 ∧
      (init ⟨CpuArch.x86, CpuUarch.other 0, true, true⟩ qnnp_params_static).q8gavgpool.genr_lemr = some k2 ∧
      (init ⟨CpuArch.x86, CpuUarch.other 0, true, true⟩ qnnp_params_static).q8gavgpool.genr_gtmr = some k3 ∧
      k1 ≠ k2 ∧ k1 ≠ k3 ∧ k2 ≠ k3 :=
  q8gavgpool_registry ⟨CpuArch.x86, CpuUarch.other 0, true, true⟩ rfl

/-- Modelled from the spec: floor of a rational value, used by the
round-half-to-even rule of the pooling reference arithmetic. The operator
tester header `global-average-pooling-operator-tester.h` and the q8gavgpool
kernels are not among the given sources, so the reference algorithm of
spec section 4.3 is embedded from its own words. -/
def ratFloor (q : ℚ) : ℤ := Int.fdiv q.num (q.den : ℤ)

/-- Modelled from the spec: the single consistent rounding rule
(round-half-to-even) applied uniformly by every kernel variant. -/
def roundHalfToEven (q : ℚ) : ℤ :=
  if q - (ratFloor q : ℚ) < 1 / 2 then ratFloor q
  else if 1 / 2 < q - (ratFloor q : ℚ) then ratFloor q + 1
  else if ratFloor q % 2 = 0 then ratFloor q else ratFloor q + 1

/-- Modelled from the spec: the per-call quantization descriptor of the
global-average-pooling call surface (scales as exact rationals standing for
the positive reals of the spec). -/
structure GavgpoolQuantization where
  inputScale : ℚ
  inputZeroPoint : Nat
  outputScale : ℚ
  outputZeroPoint : Nat
  outputMin : Nat
  outputMax : Nat

/-- Modelled from the spec: the documented defaults of the configuration
fields (inputScale 1.0, inputZeroPoint 128, outputScale 1.0,
outputZeroPoint 128, outputMin 0, outputMax 255). -/
def default_gavgpool_quant : GavgpoolQuantization := ⟨1, 128, 1, 128, 0, 255⟩

/-- Modelled from the spec: the range constraints on the quantization
descriptor. -/
def LegalQuantization (qp : GavgpoolQuantization) : Prop :=
  0 < qp.inputScale ∧ 0 < qp.outputScale ∧ qp.inputZeroPoint ≤ 255 ∧
  qp.outputZeroPoint ≤ 255 ∧ qp.outputMin ≤ qp.outputMax ∧ qp.outputMax ≤ 255

/-- Modelled from the spec: the per-call pooling problem description. -/
structure PoolingProblem where
  batchSize : Nat
  width : Nat
  channels : Nat
  inputStride : Nat
  outputStride : Nat

/-- Modelled from the spec: the range constraints on a pooling problem
(positive sizes, strides at least the channel count). -/
def LegalPoolingProblem (p : PoolingProblem) : Prop :=
  0 < p.batchSize ∧ 0 < p.width ∧ 0 < p.channels ∧
  p.channels ≤ p.inputStride ∧ p.channels ≤ p.outputStride

/-- Modelled from the spec: steps 2 to 4 of the reference algorithm applied
to an accumulated sample sum — real-valued average, affine requantization
with round-half-to-even, clamp to the configured output range, saturation
to the unsigned 8-bit range. -/
def requantize (width sum : Nat) (qp : GavgpoolQuantization) : Nat :=
  (max 0 (min 255 (max (qp.outputMin : ℤ) (min (qp.outputMax : ℤ)
    (roundHalfToEven ((sum : ℚ) / (width : ℚ) * qp.inputScale / qp.outputScale)
      + (qp.outputZeroPoint : ℤ)))))).toNat

/-- Modelled from the spec: the full reference algorithm on the samples of
one (batch, channel) pair, summing the width samples in a wide accumulator
before requantization. -/
def gavgpoolRefElem (width : Nat) (samples : List Nat) (qp : GavgpoolQuantization) : Nat :=
  requantize width samples.sum qp

/-- Modelled from the spec: the reference operator on a [batch, width,
channels] tensor, reducing along the width axis; `input b i c` is the
unsigned 8-bit sample at batch `b`, width position `i`, channel `c`. -/
def gavgpoolRef (p : PoolingProblem) (qp : GavgpoolQuantization)
    (input : Nat → Nat → Nat → Nat) (b c : Nat) : Nat :=
  gavgpoolRefElem p.width ((List.range p.width).map (fun i => input b i c)) qp

/-- Modelled from the spec: tiled accumulation of the large-width execution
path — the samples are accumulated tile by tile, `mr` samples at a time,
and the per-tile sums are combined. -/
def sumChunks (mr : Nat) (l : List Nat) : Nat :=
  if h : mr = 0 ∨ l = [] then l.sum
  else (l.take mr).sum + sumChunks mr (l.drop mr)
termination_by l.length
decreasing_by
  push_neg at h
  obtain ⟨h1, h2⟩ := h
  have hpos : 0 < l.length := List.length_pos.mpr h2
  simp only [List.length_drop]
  omega

/-- Modelled from the spec: the small-width execution path (taken when
width ≤ mr), which accumulates all samples directly. -/
def gavgpoolSmallElem (width : Nat) (samples : List Nat) (qp : GavgpoolQuantization) : Nat :=
  requantize width samples.sum qp

/-- Modelled from the spec: the large-width execution path (taken when
width > mr), which accumulates in tiles of mr samples. -/
def gavgpoolLargeElem (mr width : Nat) (samples : List Nat) (qp : GavgpoolQuantization) : Nat :=
  requantize width (sumChunks mr samples) qp

/-- Modelled from the spec: the dispatched kernel computation — the
small-width path when width ≤ mr, the tiled large-width path otherwise. -/
def gavgpoolKernel (mr : Nat) (p : PoolingProblem) (qp : GavgpoolQuantization)
    (input : Nat → Nat → Nat → Nat) (b c : Nat) : Nat :=
  if p.width ≤ mr then
    gavgpoolSmallElem p.width ((List.range p.width).map (fun i => input b i c)) qp
  else
    gavgpoolLargeElem mr p.width ((List.range p.width).map (fun i => input b i c)) qp

lemma sumChunks_eq_sum_aux (mr : Nat) :
    ∀ (n : Nat) (l : List Nat), l.length ≤ n → sumChunks mr l = l.sum := by
  intro n
  induction n with
  | zero =>
      intro l hl
      have hnil : l = [] := List.eq_nil_of_length_eq_zero (Nat.le_zero.mp hl)
      subst hnil
      rw [sumChunks]
      simp
  | succ n ih =>
      intro l hl
      by_cases h : mr = 0 ∨ l = []
      · rw [sumChunks, dif_pos h]
      · rw [sumChunks, dif_neg h]
        push_neg at h
        have hdrop : (l.drop mr).length ≤ n := by
          have hpos : 0 < l.length := List.length_pos.mpr h.2
          simp only [List.length_drop]
          omega
        rw [ih (l.drop mr) hdrop]
        exact List.sum_take_add_sum_drop l mr

lemma sumChunks_eq_sum (mr : Nat) (l : List Nat) : sumChunks mr l = l.sum :=
  sumChunks_eq_sum_aux mr l.length l le_rfl

/-- Claim C7: with batchSize 1, width 2, channels nr = 8, all other fields
at their documented defaults, and input samples [10, 20] for every channel,
the reference algorithm yields output 143 for every channel (average 15,
requantized 15 + 128 = 143, inside the clamp range). -/
theorem gavgpool_concrete_scenario (c : Nat) (h : c < 8) :
    gavgpoolRef ⟨1, 2, 8, 8, 8⟩ default_gavgpool_quant
      (fun _ i _ => if i = 0 then 10 else 20) 0 c = 143 := by
  norm_num [gavgpoolRef, gavgpoolRefElem, requantize, default_gavgpool_quant,
    List.range_succ, roundHalfToEven, ratFloor]
  rfl

/-- Witness for C7 at channel 0. -/
theorem gavgpool_concrete_scenario_witness :
    gavgpoolRef ⟨1, 2, 8, 8, 8⟩ default_gavgpool_quant
      (fun _ i _ => if i = 0 then 10 else 20) 0 0 = 143 :=
  gavgpool_concrete_scenario 0 (by decide)

/-- Claim C8: for every legal pooling problem and quantization descriptor,
the dispatched execution path — small-width direct accumulation when
width ≤ mr, tiled accumulation when width > mr — produces an output within
1 unit in the last quantized place of the reference algorithm's output for
every element; the tiled accumulation order does not change the result. -/
theorem gavgpool_both_paths_within_one_ulp (mr : Nat) (p : PoolingProblem)
    (qp : GavgpoolQuantization) (input : Nat → Nat → Nat → Nat) (b c : Nat)
    (hmr : 0 < mr) (hp : LegalPoolingProblem p) (hq : LegalQuantization qp) :
    ((gavgpoolKernel mr p qp input b c : ℤ) -
      (gavgpoolRef p qp input b c : ℤ)).natAbs ≤ 1 := by
  have heq : gavgpoolKernel mr p qp input b c = gavgpoolRef p qp input b c := by
    unfold gavgpoolKernel gavgpoolRef gavgpoolSmallElem gavgpoolLargeElem gavgpoolRefElem
    split
    · rfl
    · rw [sumChunks_eq_sum]
  rw [heq]
  simp

/-- Witness for C8 on a concrete large-width problem (width 14 > mr 7). -/
theorem gavgpool_both_paths_within_one_ulp_witness :
    ((gavgpoolKernel 7 ⟨1, 14, 8, 8, 8⟩ default_gavgpool_quant (fun _ i _ => i) 0 0 : ℤ) -
      (gavgpoolRef ⟨1, 14, 8, 8, 8⟩ default_gavgpool_quant (fun _ i _ => i) 0 0 : ℤ)).natAbs ≤ 1 :=
  gavgpool_both_paths_within_one_ulp 7 ⟨1, 14, 8, 8, 8⟩ default_gavgpool_quant
    (fun _ i _ => i) 0 0 (by decide)
    (by norm_num [LegalPoolingProblem])
    (by norm_num [LegalQuantization, default_gavgpool_quant])

lemma clamp_sat_ge (lo hi v : ℤ) (hlo : 128 ≤ lo) :
    128 ≤ (max 0 (min 255 (max lo (min hi v)))).toNat := by
  have h1 : (128 : ℤ) ≤ max lo (min hi v) := le_trans hlo (le_max_left _ _)
  have h2 : (128 : ℤ) ≤ min 255 (max lo (min hi v)) := le_min (by norm_num) h1
  have h3 : (128 : ℤ) ≤ max 0 (min 255 (max lo (min hi v))) :=
    le_trans h2 (le_max_right _ _)
  have h4 := Int.toNat_le_toNat h3
  simpa using h4

lemma clamp_sat_le (lo hi v : ℤ) (hlo : lo ≤ 128) (hhi : hi ≤ 128) :
    (max 0 (min 255 (max lo (min hi v)))).toNat ≤ 128 := by
  have h1 : max lo (min hi v) ≤ 128 := max_le hlo (le_trans (min_le_left _ _) hhi)
  have h2 : min 255 (max lo (min hi v)) ≤ 128 := le_trans (min_le_right _ _) h1
  have h3 : max 0 (min 255 (max lo (min hi v))) ≤ 128 := max_le (by norm_num) h2
  exact Int.toNat_le.mpr (by exact_mod_cast h3)

/-- Claim C9: for every input to the pooling reference algorithm with a
legal quantization descriptor, outputMin = 128 forces every output element
to be at least 128, and outputMax = 128 forces every output element to be
at most 128 — the step-4 clamp is applied before the 8-bit saturation. -/
theorem gavgpool_clamp_bounds (p : PoolingProblem) (qp : GavgpoolQuantization)
    (input : Nat → Nat → Nat → Nat) (b c : Nat) (hq : LegalQuantization qp) :
    (qp.outputMin = 128 → 128 ≤ gavgpoolRef p qp input b c) ∧
    (qp.outputMax = 128 → gavgpoolRef p qp input b c ≤ 128) := by
  constructor
  · intro h
    unfold gavgpoolRef gavgpoolRefElem requantize
    apply clamp_sat_ge
    exact_mod_cast h.ge
  · intro h
    unfold gavgpoolRef gavgpoolRefElem requantize
    apply clamp_sat_le
    · have hmin : qp.outputMin ≤ 128 := h ▸ hq.2.2.2.2.1
      exact_mod_cast hmin
    · exact_mod_cast h.le

/-- Witness for C9 with outputMin = 128 on a concrete input. -/
theorem gavgpool_clamp_bounds_witness :
    128 ≤ gavgpoolRef ⟨1, 2, 8, 8, 8⟩ ⟨1, 128, 1, 128, 128, 255⟩ (fun _ _ _ => 0) 0 0 :=
  (gavgpool_clamp_bounds ⟨1, 2, 8, 8, 8⟩ ⟨1, 128, 1, 128, 128, 255⟩ (fun _ _ _ => 0) 0 0
    (by norm_num [LegalQuantization])).1 rfl
